import Mathlib

/-!
Shallow embedding of the Trivia API backend (`backend/flaskr/__init__.py`).

The Flask handlers are pure functions here: the database is passed in as a
list of rows, the parsed JSON body and query parameters are passed as
arguments, and the random choice made by `random.choice` is an oracle index
parameter.  A handler's observable outcome is a `Resp` value: a success
payload, an HTTP error status produced through `abort`/the error handlers,
an uncaught exception escaping the view function (Flask turns this into a
500), or the view function returning `None` (Flask also turns this into a
500, but we keep it distinct because it means no response was produced by
the handler itself).
-/

namespace Trivia

/-- A row of the `Question` table (`models.Question`). -/
structure Question where
  id : Int
  question : String
  answer : String
  category : Int
  difficulty : Int
deriving DecidableEq, Repr

/-- The plain-mapping projection of a question.
Modelled from the spec: `models.py` is not under `src/`; the spec says each
entity has "a `format()` projection to a plain mapping", so `format` maps a
row to a record of its fields. -/
structure FormattedQuestion where
  id : Int
  question : String
  answer : String
  category : Int
  difficulty : Int
deriving DecidableEq, Repr

/-- Modelled from the spec: `Question.format()` projects the row to a plain
mapping of its fields (`models.py` is not under `src/`). -/
def Question.format (q : Question) : FormattedQuestion :=
  ⟨q.id, q.question, q.answer, q.category, q.difficulty⟩

/-- A row of the `Category` table (`models.Category`). -/
structure Category where
  id : Int
  type : String
deriving DecidableEq, Repr

/-- Plain-mapping projection of a category.
Modelled from the spec: `models.py` is not under `src/`. -/
structure FormattedCategory where
  id : Int
  type : String
deriving DecidableEq, Repr

/-- Modelled from the spec: `Category.format()` projects the row to a plain
mapping of its fields (`models.py` is not under `src/`). -/
def Category.format (c : Category) : FormattedCategory :=
  ⟨c.id, c.type⟩

/-- Constant `QUESTIONS_PER_PAGE = 10`. -/
def QUESTIONS_PER_PAGE : Int := 10

/-- One bound of a Python slice `l[start:stop]`: a negative index counts from
the end (clamped at 0), a nonnegative index is clamped at the length. -/
def pyClamp (n : Nat) (i : Int) : Nat :=
  if i < 0 then (i + n).toNat else min i.toNat n

/-- Python list slicing `l[start:stop]`. -/
def pySlice (start stop : Int) (l : List α) : List α :=
  let s := pyClamp l.length start
  let e := pyClamp l.length stop
  (l.drop s).take (e - s)

/-- Function `paginate_questions(request, selection)`: `page` is the already-parsed
`page` query parameter (`request.args.get('page', 1, type=int)`); the
selection is formatted and then sliced `[start:end]` with
`start = (page-1)*QUESTIONS_PER_PAGE`, `end = start + QUESTIONS_PER_PAGE`. -/
def paginate_questions (page : Int) (selection : List Question) : List FormattedQuestion :=
  let start := (page - 1) * QUESTIONS_PER_PAGE
  let stop := start + QUESTIONS_PER_PAGE
  let questions := selection.map Question.format
  pySlice start stop questions

/-- Insert a question into a list sorted by ascending `id`. -/
def insertById (q : Question) : List Question → List Question
  | [] => [q]
  | x :: xs => if q.id ≤ x.id then q :: x :: xs else x :: insertById q xs

/-- Query `Question.query.order_by(Question.id)`: the table's rows sorted by
ascending `id` (insertion sort). -/
def sortById : List Question → List Question
  | [] => []
  | x :: xs => insertById x (sortById xs)

/-- Observable outcome of one request: a 200 success with payload, an HTTP
error status (via `abort` and the registered error handlers), an uncaught
exception escaping the view (Flask: 500), or the view returning `None`
(Flask: 500, "did not return a valid response"). -/
inductive Resp (α : Type) where
  | success : α → Resp α
  | error : Nat → Resp α
  | exn : Resp α
  | noResp : Resp α
deriving DecidableEq, Repr

/-- The HTTP status code a client observes for an outcome. -/
def Resp.status : Resp α → Nat
  | .success _ => 200
  | .error s => s
  | .exn => 500
  | .noResp => 500

/-- Success body of `GET /questions` (the null JSON key is spelled
`'current category'` in the source). -/
structure QuestionsPayload where
  questions : List FormattedQuestion
  total_questions : Nat
  current_category : Option Int
  categories : List FormattedCategory
deriving DecidableEq, Repr

/-- Handler `retrieve_questions` (`GET /questions`): questions ordered by id,
paginated; 404 when the page is empty; otherwise a success envelope with
the page, the unfiltered total, a null current category and all
categories. -/
def retrieve_questions (page : Int) (db : List Question) (cats : List Category) :
    Resp QuestionsPayload :=
  let selection := sortById db
  let all_categories := cats.map Category.format
  let current_questions := paginate_questions page selection
  if current_questions.length = 0 then
    .error 404
  else
    .success { questions := current_questions
               total_questions := db.length
               current_category := none
               categories := all_categories }

/-- Success body of `GET /categories/(id)/questions`. -/
structure CategoryQuestionsPayload where
  questions : List FormattedQuestion
  total_questions : Nat
  current_category : Int
deriving DecidableEq, Repr

/-- Handler `retrieve_questions_by_category` (`GET /categories/(id)/questions`).
The whole body is a `try` whose `except BaseException` does `abort(422)`;
the `abort(404)` on an empty page raises inside the `try`, so it is caught
and converted to 422.  `dbRaises` injects a failure of the database query
(the external collaborator may raise). -/
def retrieve_questions_by_category (category_id : Int) (page : Int)
    (db : List Question) (dbRaises : Bool) : Resp CategoryQuestionsPayload :=
  let inner : Except Unit CategoryQuestionsPayload :=
    if dbRaises then .error () else
    let questions_by_category := (sortById db).filter (fun q => q.category == category_id)
    let questions_paginated := paginate_questions page questions_by_category
    if questions_paginated.length = 0 then
      .error ()
    else
      .ok { questions := questions_paginated
            total_questions := (db.filter (fun q => q.category == category_id)).length
            current_category := category_id }
  match inner with
  | .ok p => .success p
  | .error _ => .error 422

/-- Success body of `DELETE /questions/(id)`. -/
structure DeletePayload where
  deleted : FormattedQuestion
  deleted_id : Int
deriving DecidableEq, Repr

/-- Handler `delete_question` (`DELETE /questions/(id)`): `one_or_none` on the rows
with the given id (raising when there is more than one), `abort(404)` when
there is none — but that abort raises inside the `try`, whose
`except BaseException` does `abort(422)`.  Returns the response together
with the table after the deletion. -/
def delete_question (question_id : Int) (db : List Question) :
    Resp DeletePayload × List Question :=
  let inner : Except Unit (DeletePayload × List Question) :=
    match db.filter (fun q => q.id == question_id) with
    | [] => .error ()
    | [q] => .ok ({ deleted := q.format, deleted_id := question_id }, db.erase q)
    | _ => .error ()
  match inner with
  | .ok (p, db2) => (.success p, db2)
  | .error _ => (.error 422, db)

/-- Lower-case a character list (SQL `ILIKE` compares case-insensitively). -/
def toLowerList (l : List Char) : List Char := l.map Char.toLower

/-- PostgreSQL `ILIKE` pattern matching on character lists, case-insensitive:
`%` matches any sequence (some suffix of the text matches the rest of the
pattern), `_` matches any single character, a backslash escapes the next
pattern character (a trailing lone backslash is taken as a literal
backslash). -/
def likeM : List Char → List Char → Bool
  | [], t => t.isEmpty
  | p :: ps, t =>
    if p = '%' then
      (t.tails).any (fun t2 => likeM ps t2)
    else if p = '_' then
      match t with
      | [] => false
      | _ :: t2 => likeM ps t2
    else if p = '\\' then
      match ps with
      | [] => t == ['\\']
      | c :: ps2 =>
        match t with
        | [] => false
        | d :: t2 => (d.toLower == c.toLower) && likeM ps2 t2
    else
      match t with
      | [] => false
      | d :: t2 => (d.toLower == p.toLower) && likeM ps t2

/-- Operation `column.ilike(pattern)` on strings. -/
def ilike (pattern text : String) : Bool := likeM pattern.toList text.toList

/-- Predicate `prefEq s t`: `s` is literally a prefix of `t`. -/
def prefEq : List Char → List Char → Bool
  | [], _ => true
  | _ :: _, [] => false
  | a :: as, b :: bs => (a == b) && prefEq as bs

/-- Predicate `containsSub s t`: `s` occurs as a contiguous substring of `t`.  Applied
to lower-cased texts this is the spec's reading of the search filter
("case-insensitive substring match"). -/
def containsSub (s : List Char) : List Char → Bool
  | [] => prefEq s []
  | b :: t2 => prefEq s (b :: t2) || containsSub s t2

/-- A search term containing none of the SQL pattern metacharacters
`%`, `_`, `\`. -/
def plainChars (s : List Char) : Bool :=
  s.all (fun c => !(c == '%' || c == '_' || c == '\\'))

/-- Python `'{}'.format(x)` for an optional string: `None` prints as the
four-character string `None`. -/
def pyFormatOptStr : Option String → String
  | some s => s
  | none => "None"

/-- Success body of `POST /search`. -/
structure SearchPayload where
  questions : List FormattedQuestion
deriving DecidableEq, Repr

/-- Handler `search_question` (`POST /search`): `searchTerm` is `body.get('searchTerm',
None)`; the filter is `ilike('%{}%'.format(search))` over questions ordered
by id, then paginated; the handler always answers with a success envelope. -/
def search_question (searchTerm : Option String) (page : Int) (db : List Question) :
    Resp SearchPayload :=
  let search := searchTerm
  let pattern := "%" ++ pyFormatOptStr search ++ "%"
  let questions := (sortById db).filter (fun q => ilike pattern q.question)
  let questions_paginated := paginate_questions page questions
  .success { questions := questions_paginated }

/-- The parsed `quiz_category` member of the `POST /quizzes` body: a JSON
object that may or may not carry an `id` key. -/
structure QuizCategoryJson where
  id : Option Int
deriving DecidableEq, Repr

/-- The parsed JSON body of `POST /quizzes`; either key may be absent
(`body.get(..., None)`). -/
structure QuizBody where
  quiz_category : Option QuizCategoryJson
  previous_questions : Option (List Int)
deriving DecidableEq, Repr

/-- Success body of `POST /quizzes`. -/
structure QuizPayload where
  question : FormattedQuestion
deriving DecidableEq, Repr

/-- Handler `retrieve_quizzes` (`POST /quizzes`).  `quiz_category['id']` is evaluated
BEFORE the `try` block: a missing `quiz_category` (subscripting `None`) or a
missing `id` key raises an uncaught exception (`.exn`, a 500).  Inside the
`try`, the candidate set is all questions when the id is 0 and the
category-filtered questions otherwise; an exception inside the `try`
(e.g. `q.id not in None` when `previous_questions` is absent and the
candidate loop runs at least once) is caught and mapped to `abort(404)`.
When every candidate was already asked the handler assigns
`formatted_question = 0` and falls off the end without returning
(`.noResp`).  Otherwise `random.choice(questions)` picks from the FULL
candidate list — `pick` is the random index oracle. -/
def retrieve_quizzes (body : QuizBody) (pick : Nat) (db : List Question) :
    Resp QuizPayload :=
  match body.quiz_category with
  | none => .exn
  | some qc =>
    match qc.id with
    | none => .exn
    | some category_id =>
      let questions :=
        if category_id == 0 then db
        else db.filter (fun q => q.category == category_id)
      match body.previous_questions with
      | none =>
        match questions with
        | [] => .noResp
        | _ :: _ => .error 404
      | some previous_questions =>
        let new_questions := questions.filter (fun q => !(previous_questions.contains q.id))
        if new_questions = [] then
          .noResp
        else
          if h : 0 < questions.length then
            let question := questions.get ⟨pick % questions.length, Nat.mod_lt pick h⟩
            .success { question := question.format }
          else
            .error 404

/-! ### Pagination lemmas -/

/-- For a page number `p ≥ 1` the slice bounds are nonnegative, so
`paginate_questions` is an ordinary drop/take on the formatted list. -/
theorem paginate_questions_eq (p : Int) (l : List Question) (hp : 1 ≤ p) :
    paginate_questions p l
      = ((l.map Question.format).drop (((p - 1) * 10).toNat)).take 10 := by
  have h0 : (0 : Int) ≤ (p - 1) * 10 := mul_nonneg (by omega) (by norm_num)
  have h1 : ¬ ((p - 1) * 10 < 0) := not_lt.mpr h0
  have h2 : ¬ ((p - 1) * 10 + 10 < 0) := by omega
  simp only [paginate_questions, pySlice, pyClamp, QUESTIONS_PER_PAGE, h1, h2, if_false]
  have h3 : ((p - 1) * 10 + 10).toNat = ((p - 1) * 10).toNat + 10 := by
    rw [Int.toNat_add h0 (by norm_num)]
    rfl
  rw [h3]
  set L := l.map Question.format with hL
  set n := L.length with hn
  set s := ((p - 1) * 10).toNat with hs
  rcases le_or_lt s n with h | h
  · rw [min_eq_left h]
    rw [List.take_eq_take]
    rw [List.length_drop]
    omega
  · have hd : L.drop s = [] := List.drop_eq_nil_of_le (by omega)
    have hd2 : L.drop (min s n) = [] := by
      rw [min_eq_right (le_of_lt h)]
      exact List.drop_eq_nil_of_le le_rfl
    rw [hd, hd2]
    simp

/-- A page whose start offset is at or beyond the end of the list is empty. -/
theorem paginate_questions_empty (p : Int) (l : List Question) (hp : 1 ≤ p)
    (h : (l.length : Int) ≤ (p - 1) * 10) : paginate_questions p l = [] := by
  rw [paginate_questions_eq p l hp]
  have h0 : (0 : Int) ≤ (p - 1) * 10 := mul_nonneg (by omega) (by norm_num)
  have hlen : (l.map Question.format).length ≤ ((p - 1) * 10).toNat := by
    rw [List.length_map]
    omega
  rw [List.drop_eq_nil_of_le hlen]
  simp

/-- The length of a page is `min 10 (items remaining at the start offset)`. -/
theorem paginate_questions_length (p : Int) (l : List Question) (hp : 1 ≤ p) :
    (paginate_questions p l).length = min 10 (l.length - ((p - 1) * 10).toNat) := by
  rw [paginate_questions_eq p l hp]
  rw [List.length_take, List.length_drop, List.length_map]

/-- Inserting preserves length. -/
theorem length_insertById (q : Question) (l : List Question) :
    (insertById q l).length = l.length + 1 := by
  induction l with
  | nil => rfl
  | cons x xs ih =>
    simp only [insertById]
    split
    · rfl
    · simp [ih]

/-- Sorting preserves length. -/
theorem length_sortById (l : List Question) : (sortById l).length = l.length := by
  induction l with
  | nil => rfl
  | cons x xs ih => simp [sortById, length_insertById, ih]

/-- C3: for every page number `p ≥ 1` and list of questions, the pagination
utility returns exactly the formatted items at offsets `(p-1)*10` through
`(p-1)*10+9` (those that exist); a page starting at or beyond the end of the
list is the empty list rather than an error; and a non-empty slice has
length `min 10 (items remaining at the page's start offset)`. -/
theorem paginate_questions_page_slice_spec (p : Int) (l : List Question) (hp : 1 ≤ p) :
    paginate_questions p l
      = ((l.map Question.format).drop (((p - 1) * 10).toNat)).take 10
    ∧ ((l.length : Int) ≤ (p - 1) * 10 → paginate_questions p l = [])
    ∧ (paginate_questions p l ≠ [] →
        (paginate_questions p l).length = min 10 (l.length - ((p - 1) * 10).toNat)) :=
  ⟨paginate_questions_eq p l hp,
   fun h => paginate_questions_empty p l hp h,
   fun _ => paginate_questions_length p l hp⟩

theorem paginate_questions_page_slice_spec_witness :
    (1 : Int) ≤ 2
    ∧ (paginate_questions 2 ([⟨1, "q", "a", 1, 1⟩] : List Question)
        = ((([⟨1, "q", "a", 1, 1⟩] : List Question).map Question.format).drop
            ((((2 : Int) - 1) * 10).toNat)).take 10
      ∧ ((([⟨1, "q", "a", 1, 1⟩] : List Question).length : Int) ≤ ((2 : Int) - 1) * 10 →
          paginate_questions 2 ([⟨1, "q", "a", 1, 1⟩] : List Question) = [])
      ∧ (paginate_questions 2 ([⟨1, "q", "a", 1, 1⟩] : List Question) ≠ [] →
          (paginate_questions 2 ([⟨1, "q", "a", 1, 1⟩] : List Question)).length
            = min 10 (([⟨1, "q", "a", 1, 1⟩] : List Question).length
                - (((2 : Int) - 1) * 10).toNat))) :=
  ⟨by norm_num,
   paginate_questions_page_slice_spec 2 ([⟨1, "q", "a", 1, 1⟩] : List Question) (by norm_num)⟩

/-- C7: `GET /questions` answers 404 exactly when the paginated page is
empty — in particular whenever the requested page number lies beyond the
last page — and otherwise answers a success envelope carrying the paginated
questions, the unfiltered total count, a null current-category field and
the full category list. -/
theorem retrieve_questions_spec (page : Int) (db : List Question) (cats : List Category) :
    (paginate_questions page (sortById db) = [] →
        retrieve_questions page db cats = .error 404)
    ∧ (paginate_questions page (sortById db) ≠ [] →
        retrieve_questions page db cats
          = .success { questions := paginate_questions page (sortById db)
                       total_questions := db.length
                       current_category := none
                       categories := cats.map Category.format })
    ∧ (1 ≤ page → (db.length : Int) ≤ (page - 1) * 10 →
        retrieve_questions page db cats = .error 404) := by
  refine ⟨fun h => ?_, fun h => ?_, fun h1 h2 => ?_⟩
  · simp [retrieve_questions, h]
  · simp only [retrieve_questions]
    rw [if_neg]
    simp [List.length_eq_zero, h]
  · have hpag : paginate_questions page (sortById db) = [] := by
      apply paginate_questions_empty page (sortById db) h1
      rw [length_sortById]
      exact h2
    simp [retrieve_questions, hpag]

theorem retrieve_questions_spec_witness :
    retrieve_questions 2 [] [] = .error 404
    ∧ retrieve_questions 1 ([⟨1, "q", "a", 1, 1⟩] : List Question) []
        = .success { questions := paginate_questions 1 (sortById [⟨1, "q", "a", 1, 1⟩])
                     total_questions := ([⟨1, "q", "a", 1, 1⟩] : List Question).length
                     current_category := none
                     categories := ([] : List Category).map Category.format } :=
  ⟨(retrieve_questions_spec 2 [] []).1 (by decide),
   (retrieve_questions_spec 1 ([⟨1, "q", "a", 1, 1⟩] : List Question) []).2.1 (by decide)⟩

/-! ### Quiz draw (`POST /quizzes`) -/

/-- Core of the successful branch of the quiz draw: if the branch structure
of `retrieve_quizzes` over an arbitrary candidate list `qs` produces a
success, its question is the image of a member of `qs`. -/
theorem quizChoice_mem (qs : List Question) (prev : List Int) (pick : Nat)
    (payload : QuizPayload)
    (hres : (if qs.filter (fun q => !(prev.contains q.id)) = [] then
          (Resp.noResp : Resp QuizPayload)
        else if h : 0 < qs.length then
          Resp.success { question := (qs.get ⟨pick % qs.length, Nat.mod_lt pick h⟩).format }
        else Resp.error 404) = Resp.success payload) :
    payload.question ∈ qs.map Question.format := by
  by_cases hf : qs.filter (fun q => !(prev.contains q.id)) = []
  · rw [if_pos hf] at hres
    exact Resp.noConfusion hres
  · rw [if_neg hf] at hres
    by_cases hl : 0 < qs.length
    · rw [dif_pos hl] at hres
      cases hres
      exact List.mem_map_of_mem Question.format (List.get_mem _ _ _)
    · rw [dif_neg hl] at hres
      exact Resp.noConfusion hres

/-- C2: in a quiz draw the candidate set is all questions when
`quiz_category.id = 0` and exactly the questions of that category otherwise,
and whatever the random index turns out to be, a successfully returned
question is the formatted image of a member of that candidate set. -/
theorem retrieve_quizzes_candidate_membership
    (body : QuizBody) (pick : Nat) (db : List Question)
    (qc : QuizCategoryJson) (cid : Int) (prev : List Int) (payload : QuizPayload)
    (hqc : body.quiz_category = some qc) (hid : qc.id = some cid)
    (hprev : body.previous_questions = some prev)
    (hres : retrieve_quizzes body pick db = .success payload) :
    payload.question
      ∈ (if cid == 0 then db
         else db.filter (fun q => q.category == cid)).map Question.format := by
  simp only [retrieve_quizzes, hqc, hid, hprev] at hres
  exact quizChoice_mem _ prev pick payload hres

theorem retrieve_quizzes_candidate_membership_witness :
    retrieve_quizzes ⟨some ⟨some 0⟩, some []⟩ 0 ([⟨1, "q", "a", 1, 1⟩] : List Question)
        = .success ⟨Question.format ⟨1, "q", "a", 1, 1⟩⟩
    ∧ (⟨Question.format ⟨1, "q", "a", 1, 1⟩⟩ : QuizPayload).question
        ∈ (if (0 : Int) == 0 then ([⟨1, "q", "a", 1, 1⟩] : List Question)
           else ([⟨1, "q", "a", 1, 1⟩] : List Question).filter
             (fun q => q.category == 0)).map Question.format :=
  ⟨by decide,
   retrieve_quizzes_candidate_membership ⟨some ⟨some 0⟩, some []⟩ 0
     ([⟨1, "q", "a", 1, 1⟩] : List Question) ⟨some 0⟩ 0 []
     ⟨Question.format ⟨1, "q", "a", 1, 1⟩⟩ rfl rfl rfl (by decide)⟩

/-- C9: when every candidate question's id already appears in
`previous_questions`, the handler computes the completion marker and then
falls off the end of the `try` without returning: the outcome is no
response at all, in particular no success envelope. -/
theorem retrieve_quizzes_exhausted_no_response
    (body : QuizBody) (pick : Nat) (db : List Question)
    (qc : QuizCategoryJson) (cid : Int) (prev : List Int)
    (hqc : body.quiz_category = some qc) (hid : qc.id = some cid)
    (hprev : body.previous_questions = some prev)
    (hall : ∀ q ∈ (if cid == 0 then db else db.filter (fun q => q.category == cid)),
        q.id ∈ prev) :
    retrieve_quizzes body pick db = .noResp := by
  simp only [retrieve_quizzes, hqc, hid, hprev]
  have hnil : (if cid == 0 then db
      else db.filter (fun q => q.category == cid)).filter
        (fun q => !(prev.contains q.id)) = [] := by
    rw [List.filter_eq_nil_iff]
    intro a ha
    simp [hall a ha]
  rw [if_pos hnil]

theorem retrieve_quizzes_exhausted_no_response_witness :
    retrieve_quizzes ⟨some ⟨some 0⟩, some [1]⟩ 0 ([⟨1, "q", "a", 1, 1⟩] : List Question)
      = .noResp :=
  retrieve_quizzes_exhausted_no_response ⟨some ⟨some 0⟩, some [1]⟩ 0
    ([⟨1, "q", "a", 1, 1⟩] : List Question) ⟨some 0⟩ 0 [1] rfl rfl rfl (by decide)

/-- C1 (evidence of the code bug): with candidate questions of ids 1 and 2,
`previous_questions = [1]` and the random index falling on the first
candidate, the handler answers success with the question of id 1 — an id
that appears in `previous_questions`, violating the stated invariant
(`random.choice` draws from the full candidate list, not the unseen
subset). -/
theorem retrieve_quizzes_returns_already_asked :
    retrieve_quizzes ⟨some ⟨some 0⟩, some [1]⟩ 0
        ([⟨1, "q1", "a1", 1, 1⟩, ⟨2, "q2", "a2", 1, 1⟩] : List Question)
      = .success ⟨Question.format ⟨1, "q1", "a1", 1, 1⟩⟩
    ∧ (Question.format ⟨1, "q1", "a1", 1, 1⟩).id ∈ [(1 : Int)] := by
  constructor
  · decide
  · decide

/-- C6 (counterexample): a body whose `quiz_category` carries no `id` key
makes `quiz_category['id']` raise BEFORE the `try` block, so the exception
escapes the handler uncaught and the status is 500, not the 404 the claim
asserts. -/
theorem retrieve_quizzes_missing_id_not_404 :
    retrieve_quizzes ⟨some ⟨none⟩, some []⟩ 0 ([] : List Question) = .exn
    ∧ (retrieve_quizzes ⟨some ⟨none⟩, some []⟩ 0 ([] : List Question)).status = 500
    ∧ (retrieve_quizzes ⟨some ⟨none⟩, some []⟩ 0 ([] : List Question)).status ≠ 404 := by
  refine ⟨by decide, by decide, by decide⟩

/-- C6 (amended): exceptions raised inside the handler's `try` block map to
404 (e.g. a missing `previous_questions` once the candidate loop runs), but
a body lacking `quiz_category.id` — either no `quiz_category` at all or an
object without `id` — raises before the `try` and escapes uncaught, which
Flask reports as 500. -/
theorem retrieve_quizzes_error_mapping (body : QuizBody) (pick : Nat) (db : List Question) :
    (body.quiz_category = none →
        retrieve_quizzes body pick db = .exn
        ∧ (retrieve_quizzes body pick db).status = 500)
    ∧ (∀ qc, body.quiz_category = some qc → qc.id = none →
        retrieve_quizzes body pick db = .exn
        ∧ (retrieve_quizzes body pick db).status = 500)
    ∧ (∀ qc cid, body.quiz_category = some qc → qc.id = some cid →
        body.previous_questions = none →
        (if cid == 0 then db else db.filter (fun q => q.category == cid)) ≠ [] →
        retrieve_quizzes body pick db = .error 404
        ∧ (retrieve_quizzes body pick db).status = 404) := by
  refine ⟨fun h => ?_, fun qc h1 h2 => ?_, fun qc cid h1 h2 h3 hne => ?_⟩
  · simp [retrieve_quizzes, h, Resp.status]
  · simp [retrieve_quizzes, h1, h2, Resp.status]
  · obtain ⟨a, l, hq⟩ := List.exists_cons_of_ne_nil hne
    constructor
    · simp only [retrieve_quizzes, h1, h2, h3, hq]
    · simp only [retrieve_quizzes, h1, h2, h3, hq, Resp.status]

theorem retrieve_quizzes_error_mapping_witness :
    retrieve_quizzes ⟨some ⟨some 0⟩, none⟩ 0 ([⟨1, "q", "a", 1, 1⟩] : List Question)
        = .error 404
    ∧ (retrieve_quizzes ⟨some ⟨some 0⟩, none⟩ 0
        ([⟨1, "q", "a", 1, 1⟩] : List Question)).status = 404 :=
  (retrieve_quizzes_error_mapping ⟨some ⟨some 0⟩, none⟩ 0
      ([⟨1, "q", "a", 1, 1⟩] : List Question)).2.2
    ⟨some 0⟩ 0 rfl rfl rfl (by decide)

/-! ### Delete (`DELETE /questions/(id)`) and by-category listing -/

/-- C4 (counterexample): deleting an id that matches no question does NOT
answer 404 — the handler's `abort(404)` raises inside its own
`try/except BaseException`, which converts it to `abort(422)`. -/
theorem delete_question_absent_not_404 :
    (delete_question 500 ([] : List Question)).1 = .error 422
    ∧ (delete_question 500 ([] : List Question)).1 ≠ .error 404 := by
  refine ⟨by decide, by decide⟩

/-- C4 (amended): deleting an id with no matching question answers
Unprocessable (422), the internal Not Found abort being swallowed by the
blanket exception handler; deleting an id matched by exactly one question
answers a success envelope with the deleted question's formatted
representation and its id. -/
theorem delete_question_spec (question_id : Int) (db : List Question) :
    (db.filter (fun q => q.id == question_id) = [] →
        (delete_question question_id db).1 = .error 422)
    ∧ (∀ q, db.filter (fun q => q.id == question_id) = [q] →
        (delete_question question_id db).1
          = .success { deleted := q.format, deleted_id := question_id }) := by
  constructor
  · intro h
    simp only [delete_question, h]
  · intro q h
    simp only [delete_question, h]

theorem delete_question_spec_witness :
    (delete_question 5 ([] : List Question)).1 = .error 422
    ∧ (delete_question 5 ([⟨5, "q", "a", 1, 1⟩] : List Question)).1
        = .success { deleted := Question.format ⟨5, "q", "a", 1, 1⟩, deleted_id := 5 } :=
  ⟨(delete_question_spec 5 ([] : List Question)).1 (by decide),
   (delete_question_spec 5 ([⟨5, "q", "a", 1, 1⟩] : List Question)).2
     ⟨5, "q", "a", 1, 1⟩ (by decide)⟩

/-- C5 (counterexample): a category listing whose paginated result is empty
does NOT answer 404 — the `abort(404)` raises inside the handler's
`try/except BaseException`, which converts it to 422. -/
theorem retrieve_questions_by_category_empty_not_404 :
    retrieve_questions_by_category 1 1 ([] : List Question) false = .error 422
    ∧ retrieve_questions_by_category 1 1 ([] : List Question) false ≠ .error 404 := by
  refine ⟨by decide, by decide⟩

/-- C5 (amended): when the paginated result for a category is empty —
including when no question has the given category id or the page is out of
range — the response is Unprocessable (422), the internal Not Found abort
being swallowed by the blanket exception handler; any other failure during
lookup also responds 422. -/
theorem retrieve_questions_by_category_error_spec (category_id page : Int)
    (db : List Question) (dbRaises : Bool) :
    (paginate_questions page ((sortById db).filter (fun q => q.category == category_id)) = [] →
        retrieve_questions_by_category category_id page db dbRaises = .error 422)
    ∧ (dbRaises = true →
        retrieve_questions_by_category category_id page db dbRaises = .error 422) := by
  constructor
  · intro h
    cases dbRaises with
    | true => simp only [retrieve_questions_by_category, if_true]
    | false => simp [retrieve_questions_by_category, h]
  · intro h
    subst h
    simp only [retrieve_questions_by_category, if_true]

theorem retrieve_questions_by_category_error_spec_witness :
    retrieve_questions_by_category 3 1 ([] : List Question) false = .error 422 :=
  (retrieve_questions_by_category_error_spec 3 1 ([] : List Question) false).1 (by decide)

/-! ### ILIKE pattern matching vs substring containment -/

/-- A literal-prefix check succeeds exactly on extensions. -/
theorem prefEq_iff (s : List Char) : ∀ t, prefEq s t = true ↔ ∃ r, t = s ++ r := by
  induction s with
  | nil =>
    intro t
    simp [prefEq]
  | cons a as ih =>
    intro t
    cases t with
    | nil =>
      simp [prefEq]
    | cons b bs =>
      simp only [prefEq, Bool.and_eq_true, beq_iff_eq, ih]
      constructor
      · rintro ⟨h1, r, h2⟩
        exact ⟨r, by rw [h1, h2]; rfl⟩
      · rintro ⟨r, h⟩
        injection h with h1 h2
        exact ⟨h1.symm, r, h2⟩

/-- Substring containment characterised as a three-way split. -/
theorem containsSub_iff (a : List Char) : ∀ b, containsSub a b = true ↔ ∃ u v, b = u ++ a ++ v := by
  intro b
  induction b with
  | nil =>
    rw [show containsSub a [] = prefEq a [] from rfl, prefEq_iff]
    constructor
    · rintro ⟨r, hr⟩
      obtain ⟨h1, h2⟩ := List.append_eq_nil.mp hr.symm
      exact ⟨[], [], by simp [h1]⟩
    · rintro ⟨u, v, h⟩
      have h2 := h.symm
      rw [List.append_eq_nil] at h2
      obtain ⟨h3, h4⟩ := h2
      rw [List.append_eq_nil] at h3
      exact ⟨[], by simp [h3.2]⟩
  | cons x b2 ih =>
    rw [show containsSub a (x :: b2) = (prefEq a (x :: b2) || containsSub a b2) from rfl]
    rw [Bool.or_eq_true, prefEq_iff, ih]
    constructor
    · rintro (⟨r, hr⟩ | ⟨u, v, huv⟩)
      · exact ⟨[], r, by simpa using hr⟩
      · exact ⟨x :: u, v, by rw [huv]; rfl⟩
    · rintro ⟨u, v, huv⟩
      cases u with
      | nil => exact Or.inl ⟨v, by simpa using huv⟩
      | cons y u2 =>
        refine Or.inr ?_
        injection huv with h1 h2
        exact ⟨u2, v, h2⟩

/-- One-step evaluation of the matcher on a nonempty pattern. -/
theorem likeM_cons_eval (p : Char) (ps : List Char) (t : List Char) :
    likeM (p :: ps) t
      = (if p = '%' then (t.tails).any (fun t2 => likeM ps t2)
        else if p = '_' then
          (match t with
           | [] => false
           | _ :: t2 => likeM ps t2)
        else if p = '\\' then
          (match ps with
           | [] => t == ['\\']
           | c :: ps2 =>
             match t with
             | [] => false
             | d :: t2 => (d.toLower == c.toLower) && likeM ps2 t2)
        else
          (match t with
           | [] => false
           | d :: t2 => (d.toLower == p.toLower) && likeM ps t2)) := by
  rw [likeM.eq_def]

/-- A leading `%` matches exactly when some split of the text lets the rest
of the pattern match the second part. -/
theorem likeM_percent (ps t : List Char) :
    likeM ('%' :: ps) t = true ↔ ∃ t1 t2, t = t1 ++ t2 ∧ likeM ps t2 = true := by
  have hunfold : likeM ('%' :: ps) t = (t.tails).any (fun t2 => likeM ps t2) := by
    rw [likeM_cons_eval, if_pos rfl]
  rw [hunfold, List.any_eq_true]
  constructor
  · rintro ⟨t2, ht2, h⟩
    obtain ⟨t1, ht1⟩ := (List.mem_tails _ _).mp ht2
    exact ⟨t1, t2, ht1.symm, h⟩
  · rintro ⟨t1, t2, h1, h2⟩
    exact ⟨t2, (List.mem_tails _ _).mpr ⟨t1, h1.symm⟩, h2⟩

/-- The pattern `%` alone matches every text. -/
theorem likeM_percent_nil (v : List Char) : likeM ['%'] v = true := by
  have hunfold : likeM ['%'] v = (v.tails).any (fun t2 => likeM [] t2) := by
    rw [likeM_cons_eval, if_pos rfl]
  rw [hunfold, List.any_eq_true]
  exact ⟨[], (List.mem_tails _ _).mpr List.nil_suffix, rfl⟩

/-- Unpacking the metacharacter-freeness of the head of a search term. -/
theorem plainChars_cons {c : Char} {s : List Char} (h : plainChars (c :: s) = true) :
    c ≠ '%' ∧ c ≠ '_' ∧ c ≠ '\\' ∧ plainChars s = true := by
  simp only [plainChars, List.all_cons, Bool.and_eq_true, Bool.not_eq_true',
    Bool.or_eq_false_iff, beq_eq_false_iff_ne, ne_eq] at h
  exact ⟨h.1.1.1, h.1.1.2, h.1.2, h.2⟩

/-- A metacharacter-free block of pattern matches exactly a case-insensitive
copy of itself at the front of the text. -/
theorem likeM_plain_append (s : List Char) (ps : List Char) : ∀ t, plainChars s = true →
    (likeM (s ++ ps) t = true ↔
      ∃ t1 t2, t = t1 ++ t2 ∧ t1.map Char.toLower = s.map Char.toLower
        ∧ likeM ps t2 = true) := by
  induction s with
  | nil =>
    intro t _
    simp only [List.nil_append, List.map_nil]
    constructor
    · intro h
      exact ⟨[], t, rfl, rfl, h⟩
    · rintro ⟨t1, t2, h1, h2, h3⟩
      have ht1 : t1 = [] := List.map_eq_nil_iff.mp h2
      subst ht1
      rw [List.nil_append] at h1
      subst h1
      exact h3
  | cons c s2 ih =>
    intro t hplain
    obtain ⟨hc1, hc2, hc3, hs2⟩ := plainChars_cons hplain
    rw [List.cons_append]
    cases t with
    | nil =>
      have hfalse : likeM (c :: (s2 ++ ps)) [] = false := by
        rw [likeM_cons_eval, if_neg hc1, if_neg hc2, if_neg hc3]
      rw [hfalse]
      simp only [List.map_cons]
      constructor
      · intro h
        exact absurd h (by simp)
      · rintro ⟨t1, t2, h1, h2, h3⟩
        obtain ⟨ht1, ht2⟩ := List.append_eq_nil.mp h1.symm
        subst ht1
        exact absurd h2 (by simp)
    | cons d t2 =>
      have hstep : likeM (c :: (s2 ++ ps)) (d :: t2)
          = ((d.toLower == c.toLower) && likeM (s2 ++ ps) t2) := by
        rw [likeM_cons_eval, if_neg hc1, if_neg hc2, if_neg hc3]
      rw [hstep, Bool.and_eq_true, beq_iff_eq, ih t2 hs2]
      simp only [List.map_cons]
      constructor
      · rintro ⟨hd, t1, t3, h1, h2, h3⟩
        exact ⟨d :: t1, t3, by rw [h1]; rfl, by simp [List.map_cons, hd, h2], h3⟩
      · rintro ⟨t1, t3, h1, h2, h3⟩
        cases t1 with
        | nil => exact absurd h2 (by simp)
        | cons x t1' =>
          injection h1 with h1a h1b
          rw [List.map_cons] at h2
          injection h2 with h2a h2b
          subst h1a
          exact ⟨h2a, t1', t3, h1b, h2b, h3⟩

/-- Splitting a list along a three-way split of its lower-cased image. -/
theorem map_split3 (f : Char → Char) (t s x y : List Char)
    (h : t.map f = x ++ s.map f ++ y) :
    ∃ t1 u v, t = t1 ++ u ++ v ∧ u.map f = s.map f := by
  refine ⟨t.take x.length, (t.drop x.length).take s.length,
    (t.drop x.length).drop s.length, ?_, ?_⟩
  · rw [List.append_assoc, List.take_append_drop, List.take_append_drop]
  · have hdrop : (t.drop x.length).map f = s.map f ++ y := by
      rw [List.map_drop, h, List.append_assoc]
      exact List.drop_left x (s.map f ++ y)
    rw [List.map_take, hdrop]
    rw [show s.length = (s.map f).length from (List.length_map s f).symm]
    exact List.take_left _ _

/-- The handler's search pattern `'%' ++ s ++ '%'` with a metacharacter-free
term `s` matches a text exactly when the lower-cased term occurs as a
substring of the lower-cased text. -/
theorem likeM_pattern_iff_containsSub (s t : List Char) (hplain : plainChars s = true) :
    likeM ('%' :: (s ++ ['%'])) t = true
      ↔ containsSub (toLowerList s) (toLowerList t) = true := by
  rw [likeM_percent, containsSub_iff]
  constructor
  · rintro ⟨t1, t2, h1, h2⟩
    obtain ⟨u, v, h3, h4, _⟩ := (likeM_plain_append s ['%'] t2 hplain).mp h2
    refine ⟨toLowerList t1, toLowerList v, ?_⟩
    subst h3
    subst h1
    simp only [toLowerList, List.map_append, List.append_assoc, h4]
  · rintro ⟨x, y, hxy⟩
    obtain ⟨t1, u, v, ht, hu⟩ :=
      map_split3 Char.toLower t s x y (by simpa [toLowerList] using hxy)
    rw [List.append_assoc] at ht
    refine ⟨t1, u ++ v, ht, ?_⟩
    exact (likeM_plain_append s ['%'] (u ++ v) hplain).mpr
      ⟨u, v, rfl, hu, likeM_percent_nil v⟩

/-! ### Orderedness of the id sort -/

/-- Membership in an insertion. -/
theorem mem_insertById (q b : Question) (l : List Question) :
    b ∈ insertById q l ↔ b = q ∨ b ∈ l := by
  induction l with
  | nil => simp [insertById]
  | cons x xs ih =>
    simp only [insertById]
    split
    · simp [List.mem_cons]
    · simp only [List.mem_cons, ih]
      tauto

/-- Insertion preserves the sortedness-by-id invariant. -/
theorem sorted_insertById (q : Question) (l : List Question)
    (h : l.Pairwise (fun a b => a.id ≤ b.id)) :
    (insertById q l).Pairwise (fun a b => a.id ≤ b.id) := by
  induction l with
  | nil => simp [insertById]
  | cons x xs ih =>
    rw [List.pairwise_cons] at h
    obtain ⟨hx, hxs⟩ := h
    simp only [insertById]
    split
    · rename_i hq
      rw [List.pairwise_cons]
      refine ⟨?_, List.pairwise_cons.mpr ⟨hx, hxs⟩⟩
      intro b hb
      cases List.mem_cons.mp hb with
      | inl hbx => exact hbx ▸ hq
      | inr hbxs => exact le_trans hq (hx b hbxs)
    · rename_i hq
      rw [List.pairwise_cons]
      refine ⟨?_, ih hxs⟩
      intro b hb
      cases (mem_insertById q b xs).mp hb with
      | inl hbq => subst hbq; omega
      | inr hbxs => exact hx b hbxs

/-- The query's `order_by(Question.id)` result is sorted by ascending id. -/
theorem sorted_sortById (l : List Question) :
    (sortById l).Pairwise (fun a b => a.id ≤ b.id) := by
  induction l with
  | nil => simp [sortById]
  | cons x xs ih => exact sorted_insertById x _ ih

/-! ### Search (`POST /search`) -/

/-- C8 (counterexample): with the search term `a_c`, whose `_` is an SQL
single-character wildcard, the question text `abc` is returned even though
it does not contain `a_c` as a substring — the response is not "exactly the
questions whose text contains s". -/
theorem search_question_wildcard_counterexample :
    search_question (some "a_c") 1 ([⟨1, "abc", "x", 1, 1⟩] : List Question)
      = .success ⟨[Question.format ⟨1, "abc", "x", 1, 1⟩]⟩
    ∧ containsSub (toLowerList "a_c".toList) (toLowerList "abc".toList) = false := by
  refine ⟨by decide, by decide⟩

/-- C8 (amended): for every search term free of the SQL metacharacters
`%`, `_`, `\`, the response is a success envelope whose questions are the
paginated slice of exactly the questions whose text contains the term
case-insensitively, taken from the id-sorted question list; moreover every
search — whatever the term, even when nothing matches — answers 200
(never Not Found), and the underlying selection is sorted by ascending
id. -/
theorem search_question_spec (s : String) (page : Int) (db : List Question)
    (hplain : plainChars s.toList = true) :
    search_question (some s) page db
      = .success ⟨paginate_questions page
          ((sortById db).filter
            (fun q => containsSub (toLowerList s.toList) (toLowerList q.question.toList)))⟩
    ∧ (∀ t : Option String, (search_question t page db).status = 200)
    ∧ (sortById db).Pairwise (fun a b => a.id ≤ b.id) := by
  refine ⟨?_, fun t => rfl, sorted_sortById db⟩
  have hfil : (sortById db).filter (fun q => ilike ("%" ++ s ++ "%") q.question)
      = (sortById db).filter
          (fun q => containsSub (toLowerList s.toList) (toLowerList q.question.toList)) := by
    apply List.filter_congr
    intro q _
    rw [Bool.eq_iff_iff]
    show likeM ("%" ++ s ++ "%").toList q.question.toList = true ↔ _
    have hpat : ("%" ++ s ++ "%").toList = '%' :: (s.toList ++ ['%']) := by
      show ("%" ++ s ++ "%").data = '%' :: (s.data ++ ['%'])
      rw [String.data_append, String.data_append]
      rfl
    rw [hpat]
    exact likeM_pattern_iff_containsSub s.toList q.question.toList hplain
  simp only [search_question, pyFormatOptStr, hfil]

theorem search_question_spec_witness :
    search_question (some "art") 1 ([⟨1, "Start here", "a", 1, 1⟩] : List Question)
      = .success ⟨paginate_questions 1
          ((sortById ([⟨1, "Start here", "a", 1, 1⟩] : List Question)).filter
            (fun q => containsSub (toLowerList "art".toList)
              (toLowerList q.question.toList)))⟩ :=
  (search_question_spec "art" 1 ([⟨1, "Start here", "a", 1, 1⟩] : List Question)
    (by decide)).1

/-- C10: a search body without a `searchTerm` key substitutes Python's
`None`, whose string formatting is the four letters `None`, so the filter
pattern is `%None%` and the response is the success envelope whose questions
are the paginated slice of exactly the questions whose text contains
`none` case-insensitively — not all questions, and not an error. -/
theorem search_question_missing_term (page : Int) (db : List Question) :
    search_question none page db
      = .success ⟨paginate_questions page
          ((sortById db).filter
            (fun q => containsSub (toLowerList "none".toList)
              (toLowerList q.question.toList)))⟩ := by
  have hfil : (sortById db).filter (fun q => ilike ("%" ++ "None" ++ "%") q.question)
      = (sortById db).filter
          (fun q => containsSub (toLowerList "none".toList)
            (toLowerList q.question.toList)) := by
    apply List.filter_congr
    intro q _
    rw [Bool.eq_iff_iff]
    show likeM ("%" ++ "None" ++ "%").toList q.question.toList = true ↔ _
    have hpat : ("%" ++ "None" ++ "%").toList = '%' :: ("None".toList ++ ['%']) := by decide
    rw [hpat]
    rw [likeM_pattern_iff_containsSub "None".toList q.question.toList (by decide)]
    rw [show toLowerList "None".toList = toLowerList "none".toList from by decide]
  simp only [search_question, pyFormatOptStr, hfil]

end Trivia
